import Mathlib

/-!
Shallow embedding of the Temporal & Perceptual Quality Analysis core of the
content-machine probe scripts (`scripts/clip_embeddings.py`,
`scripts/flow_warp_error.py`, `scripts/freeze_detect.py`,
`scripts/temporal_quality.py`, `scripts/dnsmos_score.py`).

Numeric convention: Python floats are modelled as exact rationals (ℚ), so
`int(i * step)` with `step = T / N` becomes the floor `i * T / N` (Nat
division), and `round(x, d)` becomes round-half-to-even at `d` decimal
digits, which is Python 3's rounding mode.  Decoded video frames enter the
embedding as their grayscale pixel matrices flattened to `List ℚ`
(`cv2.cvtColor(..., COLOR_BGR2GRAY)` is treated as the identity that hands
us the luminance plane).  A probe's `_fail(message)` (print an error
envelope, `raise SystemExit(2)`) is modelled as `Except.error message`,
and `probeExitOf` maps an outcome to the process exit code.
-/

namespace ContentMachine

/-- Python 3 `round(q)` on an exact rational: round half to even. -/
def pyRoundInt (q : ℚ) : ℤ :=
  let f := ⌊q⌋
  let r := q - (f : ℚ)
  if r < 1/2 then f
  else if 1/2 < r then f + 1
  else if f % 2 = 0 then f else f + 1

/-- Python 3 `round(q, ndigits)` on an exact rational. -/
def pyRound (ndigits : ℕ) (q : ℚ) : ℚ :=
  (pyRoundInt (q * (10 : ℚ) ^ ndigits) : ℚ) / (10 : ℚ) ^ ndigits

/-- `np.mean` of a flattened array (empty input yields `0`, since `x / 0 = 0`
in ℚ; all call sites below use nonempty inputs). -/
def meanList (l : List ℚ) : ℚ := l.sum / (l.length : ℚ)

/-- `np.mean(np.abs(a - b))` for two same-shape grayscale planes. -/
def meanAbsDiff (a b : List ℚ) : ℚ :=
  meanList (List.zipWith (fun x y => |x - y|) a b)

/-- `np.var` (population variance) of a 1-D array. -/
def npVar (l : List ℚ) : ℚ :=
  meanList (l.map (fun x => (x - meanList l) ^ 2))

/-- `max` of a nonempty Python list (`[]` yields `0`, never hit by callers). -/
def listMax (l : List ℚ) : ℚ :=
  match l with
  | [] => 0
  | x :: xs => xs.foldl max x

/-- Exit code of a probe outcome: `_fail` raises `SystemExit(2)`, a normal
`main` return is `0`. -/
def probeExitOf {α : Type} : Except String α → ℕ
  | .error _ => 2
  | .ok _ => 0

/-! ### Frame Sampler (`_sample_frames` in clip_embeddings.py,
`_sample_keyframes` in image_reward.py, lines 25–33)

The index-selection policy: `total_frames <= max_frames` gives
`list(range(total_frames))`, otherwise `step = total_frames / max_frames`
and `indices = [int(i * step) for i in range(max_frames)]`, i.e.
`⌊i · T / N⌋` under exact arithmetic. -/

/-- Index-selection policy of `_sample_frames` / `_sample_keyframes`. -/
def sampleFrameIndices (total_frames max_frames : ℕ) : List ℕ :=
  if total_frames ≤ max_frames then
    List.range total_frames
  else
    (List.range max_frames).map (fun i => i * total_frames / max_frames)

/-! ### Pairwise Frame Sampler (`_sample_frame_pairs` in flow_warp_error.py,
lines 25–37)

`total_frames <= 1` calls `_fail("video has insufficient frames")`;
otherwise the same stride policy is applied over the `total_frames - 1`
consecutive-pair start positions. -/

/-- Start-index selection of `_sample_frame_pairs`. -/
def samplePairStartIndices (total_frames max_pairs : ℕ) :
    Except String (List ℕ) :=
  if total_frames ≤ 1 then
    .error "video has insufficient frames"
  else if total_frames - 1 ≤ max_pairs then
    .ok (List.range (total_frames - 1))
  else
    .ok ((List.range max_pairs).map (fun i => i * (total_frames - 1) / max_pairs))

/-! ### Optical-Flow Warp-Error aggregation (`_compute_flow_warp_errors` in
flow_warp_error.py, lines 51–121)

The per-pair optical-flow computation (TV-L1 / Farneback, remap) produces
one normalized L1 error per decodable pair; the aggregation logic below is
embedded over that list of raw per-pair errors.  Each error `<= 0.3` is
retained as `round(l1_error, 6)`; pairs with error `> 0.3` are dropped as
scene cuts.  The empty-pairs and the all-cuts branches both return the
all-zero dictionary (the function never calls `_fail` on this path, so the
probe prints the result and exits 0). -/

structure WarpResult where
  meanWarpError : ℚ
  maxWarpError : ℚ
  frameErrors : List ℚ
  framesAnalyzed : ℕ
  deriving DecidableEq, Repr

/-- Aggregation stage of `_compute_flow_warp_errors`, over the raw
normalized L1 warp error of each sampled decodable pair. -/
def computeFlowWarpErrors (pairErrors : List ℚ) : WarpResult :=
  if pairErrors.isEmpty then
    { meanWarpError := 0, maxWarpError := 0, frameErrors := [], framesAnalyzed := 0 }
  else
    let errors := (pairErrors.filter (fun e => e ≤ 3/10)).map (pyRound 6)
    if errors.isEmpty then
      { meanWarpError := 0, maxWarpError := 0, frameErrors := [], framesAnalyzed := 0 }
    else
      { meanWarpError := pyRound 6 (errors.sum / (errors.length : ℚ))
        maxWarpError := pyRound 6 (listMax errors)
        frameErrors := errors
        framesAnalyzed := errors.length }

/-- `main` of flow_warp_error.py (lines 124–133): the sampler may `_fail`
(error envelope, exit 2); the aggregation itself is total, so a sampled
pair-error list always yields a printed result and exit 0. -/
def flowWarpMain (sampled : Except String (List ℚ)) : Except String WarpResult :=
  sampled.map computeFlowWarpErrors

/-! ### Freeze / Black-Frame Detector (`_detect_freezes_and_black_frames`
in freeze_detect.py, lines 31–81)

One streaming pass over the decoded frames.  `frame_num` counts every
decoded frame; a frame is analyzed unless `sample_rate > 1 ∧ frame_num %
sample_rate ≠ 0`.  An analyzed frame is black when its mean luminance is
`< 10`; it is a freeze when a previously analyzed frame exists and
`1 - diff/255 ≥ 0.99` where `diff` is the mean absolute luminance
difference against that frame.  `prev_frame` is updated only on analyzed
frames.  After the pass, zero analyzed frames is
`_fail("no frames analyzed")`; otherwise ratios are `round(count /
frames_analyzed, 4)`. -/

/-- The sampling guard `sample_rate > 1 and (frame_num % sample_rate != 0)`
(freeze_detect.py line 43): `true` means the frame is skipped. -/
def skipFrame (sample_rate frame_num : ℕ) : Bool :=
  decide (1 < sample_rate) && decide (frame_num % sample_rate ≠ 0)

structure DetectState where
  freezeEvents : ℕ
  blackFrames : ℕ
  framesAnalyzed : ℕ
  prevFrame : Option (List ℚ)
  frameNum : ℕ
  deriving DecidableEq, Repr

/-- Loop body of `_detect_freezes_and_black_frames` for one decoded frame
(given already as its grayscale plane). -/
def detectStep (sample_rate : ℕ) (s : DetectState) (gray : List ℚ) : DetectState :=
  if skipFrame sample_rate s.frameNum then
    { s with frameNum := s.frameNum + 1 }
  else
    { freezeEvents := s.freezeEvents +
        (match s.prevFrame with
         | none => 0
         | some p => if (99 : ℚ)/100 ≤ 1 - meanAbsDiff gray p / 255 then 1 else 0)
      blackFrames := s.blackFrames + (if meanList gray < 10 then 1 else 0)
      framesAnalyzed := s.framesAnalyzed + 1
      prevFrame := some gray
      frameNum := s.frameNum + 1 }

structure FreezeOutput where
  freezeEvents : ℕ
  blackFrames : ℕ
  freezeRatio : ℚ
  blackRatio : ℚ
  totalFrames : ℕ
  deriving DecidableEq, Repr

/-- The initial loop state of `_detect_freezes_and_black_frames`
(freeze_detect.py lines 31–35). -/
def detectInit : DetectState :=
  { freezeEvents := 0, blackFrames := 0, framesAnalyzed := 0,
    prevFrame := none, frameNum := 0 }

/-- `_detect_freezes_and_black_frames` over the stream of decoded grayscale
frames (the `cap.read()` loop yields them in order). -/
def detectFreezesAndBlackFrames (frames : List (List ℚ)) (sample_rate : ℕ) :
    Except String FreezeOutput :=
  let s := frames.foldl (detectStep sample_rate) detectInit
  if s.framesAnalyzed = 0 then
    .error "no frames analyzed"
  else
    .ok { freezeEvents := s.freezeEvents
          blackFrames := s.blackFrames
          freezeRatio :=
            if 0 < s.framesAnalyzed then
              pyRound 4 ((s.freezeEvents : ℚ) / (s.framesAnalyzed : ℚ))
            else 0
          blackRatio :=
            if 0 < s.framesAnalyzed then
              pyRound 4 ((s.blackFrames : ℚ) / (s.framesAnalyzed : ℚ))
            else 0
          totalFrames := s.framesAnalyzed }

/-- The frames the detector analyzes, starting the `frame_num` counter at
`k`: those whose absolute index `i` has `¬(1 < r ∧ i % r ≠ 0)`. -/
def analyzedFramesFrom (r k : ℕ) (frames : List (List ℚ)) : List (List ℚ) :=
  ((List.enumFrom k frames).filter (fun p => !skipFrame r p.1)).map Prod.snd

/-- Number of freeze events along a list of analyzed frames, given the
previously analyzed frame (if any): each frame whose similarity to its
immediate predecessor in the analyzed sequence is `≥ 0.99` counts once. -/
def freezeCountFrom (prev : Option (List ℚ)) : List (List ℚ) → ℕ
  | [] => 0
  | f :: rest =>
    (match prev with
     | none => 0
     | some p => if (99 : ℚ)/100 ≤ 1 - meanAbsDiff f p / 255 then 1 else 0)
      + freezeCountFrom (some f) rest

/-- Black-frame test of the detector, as a Bool predicate. -/
def isBlackFrame (gray : List ℚ) : Bool := decide (meanList gray < 10)

/-! ### Flicker (`_compute_flicker` in temporal_quality.py, lines 46–63) -/

structure FlickerResult where
  score : ℚ
  variance : ℚ
  meanDiff : Option ℚ
  deriving DecidableEq, Repr

/-- `_compute_flicker` over the sampled frames (as grayscale planes).
Fewer than 2 frames returns `{"score": 1.0, "variance": 0.0}` (no
`meanDiff` key, hence `none`). -/
def computeFlicker (frames : List (List ℚ)) : FlickerResult :=
  if frames.length < 2 then
    { score := 1, variance := 0, meanDiff := none }
  else
    let luminances := frames.map meanList
    let diffs := List.zipWith (fun a b => |b - a|) luminances luminances.tail
    let variance := if diffs.isEmpty then 0 else npVar diffs
    let mean_diff := if diffs.isEmpty then 0 else meanList diffs
    let score := max 0 (1 - mean_diff / 30)
    { score := pyRound 4 score
      variance := pyRound 4 variance
      meanDiff := some (pyRound 4 mean_diff) }

/-- The `diffs` series of `_compute_flicker`: absolute first differences of
the per-frame mean luminances. -/
def flickerDiffs (frames : List (List ℚ)) : List ℚ :=
  List.zipWith (fun a b => |b - a|) (frames.map meanList) (frames.map meanList).tail

/-! ### Duplicate-frame ratio (`_compute_duplicate_ratio` in
temporal_quality.py, lines 74–93)

The 64-bit perceptual hash (`dct_low > median` over the 8×8 low-frequency
DCT block) is abstracted as a hash function `phash : α → List Bool`; the
ratio logic over consecutive hashes is embedded exactly. -/

/-- `np.count_nonzero(h1 != h2)`: Hamming distance of two bit vectors. -/
def hammingDistance (a b : List Bool) : ℕ :=
  (List.zipWith (fun x y => decide (x ≠ y)) a b).count true

/-- `_compute_duplicate_ratio`: consecutive hash pairs at Hamming distance
`<= 5` count as duplicates; ratio is `round(duplicates / (len - 1), 4)`;
fewer than 2 frames gives `0.0`. -/
def computeDuplicateRatio {α : Type} (phash : α → List Bool) (frames : List α) : ℚ :=
  if frames.length < 2 then 0
  else
    let hashes := frames.map phash
    let duplicates :=
      (hashes.zip hashes.tail).countP (fun p => decide (hammingDistance p.2 p.1 ≤ 5))
    pyRound 4 ((duplicates : ℚ) / ((frames.length : ℚ) - 1))

/-- Number of consecutive hash pairs of `_compute_duplicate_ratio` that
count as duplicates (Hamming distance `<= 5`). -/
def duplicatePairCount {α : Type} (phash : α → List Bool) (frames : List α) : ℕ :=
  ((frames.map phash).zip (frames.map phash).tail).countP
    (fun p => decide (hammingDistance p.2 p.1 ≤ 5))

/-! ### Speech-quality probe process model (`dnsmos_score.py`)

`_extract_audio_to_wav` (lines 17–50): `tempfile.mkstemp` creates the
temporary WAV, then `subprocess.run(["ffmpeg", ...], timeout=120)` is
invoked.  The four ways that invocation can end are the constructors of
`FfmpegOutcome`.  On `returncode != 0` the code removes the WAV and calls
`_fail`; on `FileNotFoundError`, `subprocess.TimeoutExpired` or any other
`Exception` it calls `_fail` directly (note `SystemExit` raised by `_fail`
is not an `Exception`, so the `returncode != 0` branch is not re-caught).
`main` (lines 179–191) wraps only the scoring stage in `try/finally
os.remove(wav_path)`; `_compute_dnsmos_onnx` is total (every failure falls
back to `_compute_dnsmos_fallback`, which at worst returns neutral
scores), so a successful extraction always ends with exit 0 and the WAV
removed. -/

inductive FfmpegOutcome : Type
  | completed (returncode : ℤ)
  | notFound
  | timedOut
  | raised
  deriving DecidableEq, Repr

structure ProbeEnd where
  exitCode : ℕ
  tempWavRemains : Bool
  errorMessage : Option String
  deriving DecidableEq, Repr

/-- End state of the dnsmos probe process as a function of how the ffmpeg
invocation inside `_extract_audio_to_wav` ends (after the temporary WAV
has been created by `mkstemp`). -/
def dnsmosProbeEnd (o : FfmpegOutcome) : ProbeEnd :=
  match o with
  | .completed rc =>
    if rc ≠ 0 then
      { exitCode := 2, tempWavRemains := false,
        errorMessage := some "failed to extract audio with ffmpeg" }
    else
      { exitCode := 0, tempWavRemains := false, errorMessage := none }
  | .notFound =>
    { exitCode := 2, tempWavRemains := true, errorMessage := some "ffmpeg not found" }
  | .timedOut =>
    { exitCode := 2, tempWavRemains := true, errorMessage := some "ffmpeg timeout" }
  | .raised =>
    { exitCode := 2, tempWavRemains := true, errorMessage := some "failed to extract audio" }

/-! ## Helper lemmas -/

theorem sample_idx_strictMono {T N : ℕ} (hN : 0 < N) (hNT : N < T)
    {a b : ℕ} (hab : a < b) : a * T / N < b * T / N := by
  have h1 : (a * T / N + 1) * N ≤ a * T + N := by
    have := Nat.div_mul_le_self (a * T) N
    calc (a * T / N + 1) * N = a * T / N * N + N := by ring
      _ ≤ a * T + N := by omega
  have h2 : a * T + N ≤ b * T := by
    calc a * T + N ≤ a * T + T := by omega
      _ = (a + 1) * T := by ring
      _ ≤ b * T := Nat.mul_le_mul_right T hab
  have : a * T / N + 1 ≤ b * T / N :=
    (Nat.le_div_iff_mul_le hN).mpr (le_trans h1 h2)
  omega

theorem sample_idx_lt {T N : ℕ} (hNT : N < T) {i : ℕ} (hi : i < N) :
    i * T / N < T := by
  have hN : 0 < N := by omega
  have hT : 0 < T := by omega
  rw [Nat.div_lt_iff_lt_mul hN]
  calc i * T < N * T := (Nat.mul_lt_mul_right hT).mpr hi
    _ = T * N := Nat.mul_comm N T

/-! ## Claim theorems -/

/-- C1.  Frame Sampler index policy (`_sample_frames` / `_sample_keyframes`):
for `T ≥ 1`, `N ≥ 1` the sampled index list has length `min T N`, is
strictly increasing, starts at `0`, every index is `< T`; if `T ≤ N` the
indices are `0..T-1`, otherwise they are `⌊i·T/N⌋` for `i = 0..N-1`. -/
theorem frame_sampler_index_policy (T N : ℕ) (hT : 1 ≤ T) (hN : 1 ≤ N) :
    (sampleFrameIndices T N).length = min T N ∧
    (sampleFrameIndices T N).Pairwise (· < ·) ∧
    (sampleFrameIndices T N).head? = some 0 ∧
    (∀ idx ∈ sampleFrameIndices T N, idx < T) ∧
    (T ≤ N → sampleFrameIndices T N = List.range T) ∧
    (N < T → sampleFrameIndices T N = (List.range N).map (fun i => i * T / N)) := by
  by_cases h : T ≤ N
  · unfold sampleFrameIndices
    simp only [if_pos h]
    obtain ⟨t, rfl⟩ : ∃ t, T = t + 1 := ⟨T - 1, by omega⟩
    refine ⟨by simp [Nat.min_eq_left h], List.pairwise_lt_range _, ?_, ?_,
      fun _ => trivial, fun hc => absurd h (by omega)⟩
    · simp [List.range_succ_eq_map]
    · intro idx hidx
      simpa [List.mem_range] using hidx
  · push_neg at h
    unfold sampleFrameIndices
    simp only [if_neg (by omega : ¬ T ≤ N)]
    obtain ⟨n, rfl⟩ : ∃ n, N = n + 1 := ⟨N - 1, by omega⟩
    refine ⟨by simp [Nat.min_eq_right (Nat.le_of_lt h)], ?_, ?_, ?_,
      fun hc => absurd hc (by omega), fun _ => trivial⟩
    · exact List.Pairwise.map _ (fun a b hab => sample_idx_strictMono (by omega) h hab)
        (List.pairwise_lt_range _)
    · simp [List.range_succ_eq_map]
    · intro idx hidx
      simp only [List.mem_map, List.mem_range] at hidx
      obtain ⟨i, hi, rfl⟩ := hidx
      exact sample_idx_lt h hi

/-- C1 witness: concrete instantiation at `T = 12`, `N = 8`. -/
theorem frame_sampler_index_policy_spot :
    (sampleFrameIndices 12 8).head? = some 0 ∧
      (sampleFrameIndices 12 8).length = min 12 8 :=
  ⟨(frame_sampler_index_policy 12 8 (by norm_num) (by norm_num)).2.2.1,
   (frame_sampler_index_policy 12 8 (by norm_num) (by norm_num)).1⟩

/-- C5.  Pairwise Frame Sampler: `T ≤ 1` fails with the
insufficient-frames error (envelope, exit 2); otherwise the stride policy
of the Frame Sampler is applied over the `T - 1` consecutive-pair start
positions; for `T = 10`, `maxPairs = 3` exactly the 3 strictly increasing
start indices `[0, 3, 6]` are selected, all `< 9`. -/
theorem pairwise_sampler_policy (T m : ℕ) :
    (T ≤ 1 → samplePairStartIndices T m = .error "video has insufficient frames" ∧
      probeExitOf (samplePairStartIndices T m) = 2) ∧
    (2 ≤ T → samplePairStartIndices T m = .ok (sampleFrameIndices (T - 1) m)) ∧
    (samplePairStartIndices 10 3 = .ok [0, 3, 6] ∧
      ([0, 3, 6] : List ℕ).Pairwise (· < ·) ∧ ∀ i ∈ ([0, 3, 6] : List ℕ), i < 9) := by
  refine ⟨?_, ?_, ?_, ?_, ?_⟩
  · intro h
    unfold samplePairStartIndices
    rw [if_pos h]
    exact ⟨rfl, rfl⟩
  · intro h
    unfold samplePairStartIndices sampleFrameIndices
    rw [if_neg (by omega : ¬ T ≤ 1)]
    by_cases hm : T - 1 ≤ m <;> simp [hm]
  · rfl
  · decide
  · decide

/-- C5 witness: `T = 1` fails, `T = 10` reduces to the shared stride. -/
theorem pairwise_sampler_policy_spot :
    (samplePairStartIndices 1 3 = .error "video has insufficient frames" ∧
      probeExitOf (samplePairStartIndices 1 3) = 2) ∧
      samplePairStartIndices 10 3 = .ok (sampleFrameIndices 9 3) :=
  ⟨(pairwise_sampler_policy 1 3).1 (by norm_num),
   (pairwise_sampler_policy 10 3).2.1 (by norm_num)⟩

end ContentMachine

namespace ContentMachine

theorem analyzedFramesFrom_cons (r k : ℕ) (f : List ℚ) (l : List (List ℚ)) :
    analyzedFramesFrom r k (f :: l) =
      if skipFrame r k then analyzedFramesFrom r (k + 1) l
      else f :: analyzedFramesFrom r (k + 1) l := by
  unfold analyzedFramesFrom
  have he : List.enumFrom k (f :: l) = (k, f) :: List.enumFrom (k + 1) l := by
    simp [List.enumFrom]
  rw [he, List.filter_cons]
  by_cases hsk : skipFrame r k <;> simp [hsk]

theorem detect_foldl_spec (r : ℕ) (frames : List (List ℚ)) (s : DetectState) :
    (frames.foldl (detectStep r) s).framesAnalyzed
        = s.framesAnalyzed + (analyzedFramesFrom r s.frameNum frames).length ∧
    (frames.foldl (detectStep r) s).blackFrames
        = s.blackFrames + (analyzedFramesFrom r s.frameNum frames).countP isBlackFrame ∧
    (frames.foldl (detectStep r) s).freezeEvents
        = s.freezeEvents + freezeCountFrom s.prevFrame (analyzedFramesFrom r s.frameNum frames) := by
  induction frames generalizing s with
  | nil => simp [analyzedFramesFrom, freezeCountFrom]
  | cons f rest ih =>
    rw [List.foldl_cons]
    by_cases hsk : skipFrame r s.frameNum
    · simp only [analyzedFramesFrom_cons, if_pos hsk]
      have hstep : detectStep r s f = { s with frameNum := s.frameNum + 1 } := by
        unfold detectStep
        rw [if_pos hsk]
      rw [hstep]
      exact ih { s with frameNum := s.frameNum + 1 }
    · simp only [analyzedFramesFrom_cons, if_neg hsk]
      have hstep : detectStep r s f =
          { freezeEvents := s.freezeEvents +
              (match s.prevFrame with
               | none => 0
               | some p => if (99 : ℚ)/100 ≤ 1 - meanAbsDiff f p / 255 then 1 else 0),
            blackFrames := s.blackFrames + (if meanList f < 10 then 1 else 0),
            framesAnalyzed := s.framesAnalyzed + 1,
            prevFrame := some f,
            frameNum := s.frameNum + 1 } := by
        unfold detectStep
        rw [if_neg hsk]
      rw [hstep]
      obtain ⟨ih1, ih2, ih3⟩ := ih
        { freezeEvents := s.freezeEvents +
            (match s.prevFrame with
             | none => 0
             | some p => if (99 : ℚ)/100 ≤ 1 - meanAbsDiff f p / 255 then 1 else 0),
          blackFrames := s.blackFrames + (if meanList f < 10 then 1 else 0),
          framesAnalyzed := s.framesAnalyzed + 1,
          prevFrame := some f,
          frameNum := s.frameNum + 1 }
      refine ⟨?_, ?_, ?_⟩
      · rw [ih1]
        simp only [List.length_cons]
        omega
      · rw [ih2, List.countP_cons]
        simp only [isBlackFrame, decide_eq_true_eq]
        split_ifs <;> omega
      · rw [ih3]
        cases hp : s.prevFrame <;> simp [freezeCountFrom, hp] <;> omega

theorem skipFrame_zero (r : ℕ) : skipFrame r 0 = false := by
  simp [skipFrame]

theorem detect_foldl_init (r : ℕ) (frames : List (List ℚ)) :
    (frames.foldl (detectStep r) detectInit).framesAnalyzed
        = (analyzedFramesFrom r 0 frames).length ∧
    (frames.foldl (detectStep r) detectInit).blackFrames
        = (analyzedFramesFrom r 0 frames).countP isBlackFrame ∧
    (frames.foldl (detectStep r) detectInit).freezeEvents
        = freezeCountFrom none (analyzedFramesFrom r 0 frames) := by
  obtain ⟨h1, h2, h3⟩ := detect_foldl_spec r frames detectInit
  exact ⟨by simpa [detectInit] using h1, by simpa [detectInit] using h2,
    by simpa [detectInit] using h3⟩

theorem detect_ok_fields (frames : List (List ℚ)) (r : ℕ) (out : FreezeOutput)
    (h : detectFreezesAndBlackFrames frames r = .ok out) :
    out.freezeEvents = freezeCountFrom none (analyzedFramesFrom r 0 frames) ∧
    out.blackFrames = (analyzedFramesFrom r 0 frames).countP isBlackFrame ∧
    out.totalFrames = (analyzedFramesFrom r 0 frames).length ∧
    1 ≤ out.totalFrames ∧
    out.freezeRatio = pyRound 4 ((out.freezeEvents : ℚ) / (out.totalFrames : ℚ)) ∧
    out.blackRatio = pyRound 4 ((out.blackFrames : ℚ) / (out.totalFrames : ℚ)) := by
  obtain ⟨h1, h2, h3⟩ := detect_foldl_init r frames
  unfold detectFreezesAndBlackFrames at h
  set s := frames.foldl (detectStep r) detectInit with hs
  by_cases hz : s.framesAnalyzed = 0
  · simp [hz] at h
  · rw [if_neg hz] at h
    simp only [Except.ok.injEq] at h
    subst h
    simp only [if_pos (Nat.pos_of_ne_zero hz)]
    refine ⟨by simpa using h3, by simpa using h2, by simpa using h1, ?_,
      by trivial, by trivial⟩
    have := h1
    omega

theorem detect_error_iff (frames : List (List ℚ)) (r : ℕ) :
    detectFreezesAndBlackFrames frames r = .error "no frames analyzed" ↔ frames = [] := by
  obtain ⟨h1, _, _⟩ := detect_foldl_init r frames
  unfold detectFreezesAndBlackFrames
  set s := frames.foldl (detectStep r) detectInit with hs
  constructor
  · intro h
    by_contra hne
    obtain ⟨f, rest, rfl⟩ : ∃ f rest, frames = f :: rest := by
      cases frames with
      | nil => exact absurd rfl hne
      | cons f rest => exact ⟨f, rest, rfl⟩
    rw [analyzedFramesFrom_cons, skipFrame_zero] at h1
    simp only [if_neg Bool.false_ne_true, List.length_cons] at h1
    have hz : s.framesAnalyzed ≠ 0 := by omega
    rw [if_neg hz] at h
    exact Except.noConfusion h
  · intro h
    subst h
    have hz : s.framesAnalyzed = 0 := by
      simpa [analyzedFramesFrom] using h1
    rw [if_pos hz]

theorem countP_replicate {α : Type} (p : α → Bool) (n : ℕ) (a : α) :
    (List.replicate n a).countP p = if p a then n else 0 := by
  induction n with
  | zero => simp
  | succ m ih =>
    simp only [List.replicate_succ, List.countP_cons, ih]
    split_ifs <;> simp

theorem analyzedFramesFrom_rate_one (l : List (List ℚ)) :
    ∀ k : ℕ, analyzedFramesFrom 1 k l = l := by
  induction l with
  | nil => intro k; rfl
  | cons f rest ih =>
    intro k
    rw [analyzedFramesFrom_cons, ih]
    simp [skipFrame]

theorem freezeCountFrom_some_replicate (m : ℕ) :
    freezeCountFrom (some [0]) (List.replicate m [(0 : ℚ)]) = m := by
  induction m with
  | zero => rfl
  | succ j ih =>
    rw [List.replicate_succ, freezeCountFrom, ih]
    have hcond : (99 : ℚ)/100 ≤ 1 - meanAbsDiff [0] [0] / 255 := by
      norm_num [meanAbsDiff, meanList]
    rw [if_pos hcond]
    omega

theorem freezeCountFrom_none_cons (f : List ℚ) (rest : List (List ℚ)) :
    freezeCountFrom none (f :: rest) = freezeCountFrom (some f) rest := by
  simp [freezeCountFrom]

theorem freezeCountFrom_some_cons (p f : List ℚ) (rest : List (List ℚ)) :
    freezeCountFrom (some p) (f :: rest) =
      (if (99 : ℚ)/100 ≤ 1 - meanAbsDiff f p / 255 then 1 else 0)
        + freezeCountFrom (some f) rest := by
  simp [freezeCountFrom]

theorem freezeCountFrom_some_le (p : List ℚ) (l : List (List ℚ)) :
    freezeCountFrom (some p) l ≤ l.length := by
  induction l generalizing p with
  | nil => simp [freezeCountFrom]
  | cons f rest ih =>
    rw [freezeCountFrom_some_cons, List.length_cons]
    have := ih f
    split_ifs <;> omega

/-- C4 (amended).  The Freeze/Black-Frame Detector fails with the
no-frames-analyzed error exactly when zero frames were analyzed in the
streaming pass; since frame index 0 always passes the sampling guard
(`0 % sample_rate = 0`), that happens exactly when no frame could be
decoded at all — a sample rate exceeding the total frame count is *not*
such a case. -/
theorem freeze_detector_failure_condition (frames : List (List ℚ)) (r : ℕ) :
    (detectFreezesAndBlackFrames frames r = .error "no frames analyzed"
        ↔ (analyzedFramesFrom r 0 frames).length = 0) ∧
    ((analyzedFramesFrom r 0 frames).length = 0 ↔ frames = []) := by
  obtain ⟨h1, _, _⟩ := detect_foldl_init r frames
  have hsecond : (analyzedFramesFrom r 0 frames).length = 0 ↔ frames = [] := by
    cases frames with
    | nil => simp [analyzedFramesFrom]
    | cons f rest =>
      rw [analyzedFramesFrom_cons, skipFrame_zero]
      simp
  refine ⟨?_, hsecond⟩
  unfold detectFreezesAndBlackFrames
  set s := frames.foldl (detectStep r) detectInit with hs
  by_cases hz : s.framesAnalyzed = 0
  · rw [if_pos hz]
    simp only [true_iff, iff_true]
    omega
  · rw [if_neg hz]
    constructor
    · intro h
      exact Except.noConfusion h
    · intro h
      omega

/-- C4 counterexample: a clip with 5 decodable frames probed at sample
rate 10 (exceeding the frame count) analyzes frame 0 and succeeds — it
does not hit the no-frames-analyzed error the claim predicts. -/
theorem freeze_detector_sample_rate_cex :
    detectFreezesAndBlackFrames [[0], [0], [0], [0], [0]] 10 =
      .ok { freezeEvents := 0, blackFrames := 1, freezeRatio := 0,
            blackRatio := 1, totalFrames := 1 } ∧
    5 < 10 := by
  constructor
  · norm_num [detectFreezesAndBlackFrames, detectInit, detectStep, skipFrame,
      meanList, meanAbsDiff, pyRound, pyRoundInt]
  · norm_num

/-- C8 (amended).  A frame counts as black exactly when its mean luminance
is `< 10`; it counts as a freeze exactly when its similarity
`1 - meanAbsDiff/255` to the immediately preceding analyzed frame is
`≥ 0.99`; `freezeRatio` and `blackRatio` are the counts divided by the
number of frames analyzed and then rounded to 4 decimal digits. -/
theorem freeze_detector_output_spec (frames : List (List ℚ)) (r : ℕ)
    (out : FreezeOutput) (h : detectFreezesAndBlackFrames frames r = .ok out) :
    out.blackFrames = (analyzedFramesFrom r 0 frames).countP isBlackFrame ∧
    out.freezeEvents = freezeCountFrom none (analyzedFramesFrom r 0 frames) ∧
    out.totalFrames = (analyzedFramesFrom r 0 frames).length ∧
    out.freezeRatio = pyRound 4 ((out.freezeEvents : ℚ) / (out.totalFrames : ℚ)) ∧
    out.blackRatio = pyRound 4 ((out.blackFrames : ℚ) / (out.totalFrames : ℚ)) := by
  obtain ⟨h1, h2, h3, _, h5, h6⟩ := detect_ok_fields frames r out h
  exact ⟨h2, h1, h3, h5, h6⟩

/-- C8 witness: two identical dark frames at sample rate 1. -/
theorem freeze_detector_output_spot :
    (2 : ℕ) = (analyzedFramesFrom 1 0 [[0], [0]]).countP isBlackFrame ∧
    (1 : ℕ) = freezeCountFrom none (analyzedFramesFrom 1 0 [[0], [0]]) ∧
    (2 : ℕ) = (analyzedFramesFrom 1 0 [[0], [0]]).length ∧
    (1 : ℚ)/2 = pyRound 4 (((1 : ℕ) : ℚ) / ((2 : ℕ) : ℚ)) ∧
    (1 : ℚ) = pyRound 4 (((2 : ℕ) : ℚ) / ((2 : ℕ) : ℚ)) :=
  freeze_detector_output_spec [[0], [0]] 1
    { freezeEvents := 1, blackFrames := 2, freezeRatio := 1/2,
      blackRatio := 1, totalFrames := 2 }
    (by norm_num [detectFreezesAndBlackFrames, detectInit, detectStep, skipFrame,
      meanList, meanAbsDiff, pyRound, pyRoundInt])

/-- C8 counterexample: with 3 analyzed frames and 1 freeze event the
reported `freezeRatio` is `round(1/3, 4) = 0.3333 ≠ 1/3`, and
`blackRatio` is `round(2/3, 4) = 0.6667 ≠ 2/3` — the reported ratios are
not literally equal to count/analyzed. -/
theorem freeze_ratio_rounding_cex :
    detectFreezesAndBlackFrames [[0], [0], [255]] 1 =
      .ok { freezeEvents := 1, blackFrames := 2, freezeRatio := 3333/10000,
            blackRatio := 6667/10000, totalFrames := 3 } ∧
    (3333 : ℚ)/10000 ≠ (1 : ℚ)/3 ∧ (6667 : ℚ)/10000 ≠ (2 : ℚ)/3 := by
  refine ⟨?_, by norm_num, by norm_num⟩
  norm_num [detectFreezesAndBlackFrames, detectInit, detectStep, skipFrame,
    meanList, meanAbsDiff, pyRound, pyRoundInt]

/-- C10 (amended).  The first analyzed frame is never counted as a freeze
event, so `freezeEvents ≤ framesAnalyzed - 1` and the pre-rounding ratio
`freezeEvents / framesAnalyzed` is at most `(n-1)/n`, strictly below 1;
the *reported* 4-decimal `freezeRatio` can nevertheless round up to 1.0. -/
theorem freeze_events_bound (frames : List (List ℚ)) (r : ℕ)
    (out : FreezeOutput) (h : detectFreezesAndBlackFrames frames r = .ok out) :
    out.freezeEvents + 1 ≤ out.totalFrames ∧
    (out.freezeEvents : ℚ) / (out.totalFrames : ℚ)
        ≤ ((out.totalFrames : ℚ) - 1) / (out.totalFrames : ℚ) ∧
    (out.freezeEvents : ℚ) / (out.totalFrames : ℚ) < 1 := by
  obtain ⟨h1, _, h3, h4, _, _⟩ := detect_ok_fields frames r out h
  have hbound : out.freezeEvents + 1 ≤ out.totalFrames := by
    have hA : analyzedFramesFrom r 0 frames ≠ [] := by
      intro hnil
      rw [h3, hnil] at h4
      simp at h4
    obtain ⟨f, rest, hfr⟩ := List.exists_cons_of_ne_nil hA
    rw [h1, h3, hfr, freezeCountFrom_none_cons, List.length_cons]
    have := freezeCountFrom_some_le f rest
    omega
  have hpos : (0 : ℚ) < (out.totalFrames : ℚ) := by
    exact_mod_cast Nat.lt_of_lt_of_le Nat.zero_lt_one h4
  have hle : (out.freezeEvents : ℚ) ≤ (out.totalFrames : ℚ) - 1 := by
    have hc : ((out.freezeEvents + 1 : ℕ) : ℚ) ≤ ((out.totalFrames : ℕ) : ℚ) := by
      exact_mod_cast hbound
    push_cast at hc
    linarith
  refine ⟨hbound, ?_, ?_⟩
  · exact div_le_div_of_nonneg_right hle hpos.le
  · rw [div_lt_one hpos]
    exact_mod_cast Nat.lt_of_lt_of_le (Nat.lt_succ_self _) hbound

/-- C10 witness: two identical frames. -/
theorem freeze_events_bound_spot :
    (1 : ℕ) + 1 ≤ 2 ∧
    ((1 : ℕ) : ℚ) / ((2 : ℕ) : ℚ) ≤ (((2 : ℕ) : ℚ) - 1) / ((2 : ℕ) : ℚ) ∧
    ((1 : ℕ) : ℚ) / ((2 : ℕ) : ℚ) < 1 :=
  freeze_events_bound [[0], [0]] 1
    { freezeEvents := 1, blackFrames := 2, freezeRatio := 1/2,
      blackRatio := 1, totalFrames := 2 }
    (by norm_num [detectFreezesAndBlackFrames, detectInit, detectStep, skipFrame,
      meanList, meanAbsDiff, pyRound, pyRoundInt])

/-- C10 counterexample: 40000 identical frames give 39999 freeze events
among 40000 analyzed frames; `round(39999/40000, 4) = 1.0`, so the
*reported* `freezeRatio` is not strictly less than 1. -/
theorem freeze_ratio_rounds_to_one_cex :
    detectFreezesAndBlackFrames (List.replicate 40000 [(0 : ℚ)]) 1 =
      .ok { freezeEvents := 39999, blackFrames := 40000, freezeRatio := 1,
            blackRatio := 1, totalFrames := 40000 } ∧
    ¬ ((1 : ℚ) < 1) := by
  refine ⟨?_, by norm_num⟩
  obtain ⟨h1, h2, h3⟩ := detect_foldl_init 1 (List.replicate 40000 [(0 : ℚ)])
  rw [analyzedFramesFrom_rate_one] at h1 h2 h3
  simp only [detectFreezesAndBlackFrames]
  set s := (List.replicate 40000 [(0 : ℚ)]).foldl (detectStep 1) detectInit with hs
  have hfa : s.framesAnalyzed = 40000 := by
    rw [h1, List.length_replicate]
  have hbl : s.blackFrames = 40000 := by
    rw [h2, countP_replicate,
      if_pos (show isBlackFrame [(0 : ℚ)] = true by
        simp only [isBlackFrame, decide_eq_true_eq]
        norm_num [meanList])]
  have hfe : s.freezeEvents = 39999 := by
    rw [h3, show (40000 : ℕ) = 39999 + 1 from rfl, List.replicate_succ,
      freezeCountFrom_none_cons, freezeCountFrom_some_replicate]
  rw [hfa, hbl, hfe]
  norm_num [pyRound, pyRoundInt]

/-- C3 (amended).  An ffmpeg timeout inside `_extract_audio_to_wav` is
fatal: the probe prints the `"ffmpeg timeout"` error envelope and exits 2;
the heuristic fallback ladder is engaged only for the scoring stage after
a successful extraction (a completed ffmpeg run with return code 0 always
ends with exit 0). -/
theorem ffmpeg_timeout_is_fatal :
    dnsmosProbeEnd .timedOut =
      { exitCode := 2, tempWavRemains := true,
        errorMessage := some "ffmpeg timeout" } ∧
    dnsmosProbeEnd (.completed 0) =
      { exitCode := 0, tempWavRemains := false, errorMessage := none } := by
  constructor
  · rfl
  · norm_num [dnsmosProbeEnd]

/-- C3 counterexample: on an ffmpeg timeout the probe exits 2, not 0. -/
theorem ffmpeg_timeout_exit_cex :
    (dnsmosProbeEnd .timedOut).exitCode = 2 ∧
    (dnsmosProbeEnd .timedOut).exitCode ≠ 0 := by
  constructor
  · rfl
  · decide

/-- C9.  The temporary WAV file created by `tempfile.mkstemp` is removed
on the nonzero-return-code path and on the success path, but it is *not*
removed when the ffmpeg invocation raises `FileNotFoundError`,
`subprocess.TimeoutExpired`, or any other exception: those `except`
branches call `_fail` directly, so the process exits 2 with the file
still on disk. -/
theorem temp_wav_leak_on_timeout :
    (dnsmosProbeEnd .timedOut).tempWavRemains = true ∧
    (dnsmosProbeEnd .timedOut).exitCode = 2 ∧
    (dnsmosProbeEnd .notFound).tempWavRemains = true ∧
    (dnsmosProbeEnd .raised).tempWavRemains = true ∧
    (dnsmosProbeEnd (.completed 1)).tempWavRemains = false ∧
    (dnsmosProbeEnd (.completed 0)).tempWavRemains = false := by
  refine ⟨rfl, rfl, rfl, rfl, ?_, ?_⟩ <;> norm_num [dnsmosProbeEnd]

theorem flowWarpMain_ok_exit (raws : List ℚ) :
    probeExitOf (flowWarpMain (.ok raws)) = 0 := rfl

theorem computeFlowWarpErrors_ne_nil (pairErrors : List ℚ) (hpe : pairErrors ≠ []) :
    computeFlowWarpErrors pairErrors =
      (if ((pairErrors.filter (fun e => e ≤ 3/10)).map (pyRound 6)).isEmpty then
        { meanWarpError := 0, maxWarpError := 0, frameErrors := [], framesAnalyzed := 0 }
      else
        { meanWarpError := pyRound 6
            (((pairErrors.filter (fun e => e ≤ 3/10)).map (pyRound 6)).sum
              / (((pairErrors.filter (fun e => e ≤ 3/10)).map (pyRound 6)).length : ℚ)),
          maxWarpError := pyRound 6
            (listMax ((pairErrors.filter (fun e => e ≤ 3/10)).map (pyRound 6))),
          frameErrors := (pairErrors.filter (fun e => e ≤ 3/10)).map (pyRound 6),
          framesAnalyzed := ((pairErrors.filter (fun e => e ≤ 3/10)).map (pyRound 6)).length }) := by
  have hne : pairErrors.isEmpty = false := by
    cases pairErrors with
    | nil => exact absurd rfl hpe
    | cons p ps => rfl
  simp only [computeFlowWarpErrors, hne, Bool.false_eq_true, if_false]

theorem frameErrors_eq_of_ne_nil (pairErrors : List ℚ) (hpe : pairErrors ≠ []) :
    (computeFlowWarpErrors pairErrors).frameErrors
      = (pairErrors.filter (fun e => e ≤ 3/10)).map (pyRound 6) := by
  rw [computeFlowWarpErrors_ne_nil pairErrors hpe]
  by_cases hf : ((pairErrors.filter (fun e => e ≤ 3/10)).map (pyRound 6)).isEmpty
  · rw [if_pos hf]
    exact (List.isEmpty_iff.mp hf).symm
  · rw [if_neg hf]

theorem frameErrors_framesAnalyzed (pairErrors : List ℚ) (hpe : pairErrors ≠ []) :
    (computeFlowWarpErrors pairErrors).framesAnalyzed
      = ((pairErrors.filter (fun e => e ≤ 3/10)).map (pyRound 6)).length := by
  rw [computeFlowWarpErrors_ne_nil pairErrors hpe]
  by_cases hf : ((pairErrors.filter (fun e => e ≤ 3/10)).map (pyRound 6)).isEmpty
  · rw [if_pos hf, List.isEmpty_iff.mp hf]
    rfl
  · rw [if_neg hf]

theorem allzero_of_filter_nil (pairErrors : List ℚ) (hpe : pairErrors ≠ [])
    (hf : pairErrors.filter (fun e => e ≤ 3/10) = []) :
    computeFlowWarpErrors pairErrors =
      { meanWarpError := 0, maxWarpError := 0, frameErrors := [], framesAnalyzed := 0 } := by
  rw [computeFlowWarpErrors_ne_nil pairErrors hpe, hf]
  rfl

theorem mean_max_of_filter_ne_nil (pairErrors : List ℚ)
    (hpe : pairErrors ≠ []) (hf : pairErrors.filter (fun e => e ≤ 3/10) ≠ []) :
    (computeFlowWarpErrors pairErrors).meanWarpError
        = pyRound 6 (((pairErrors.filter (fun e => e ≤ 3/10)).map (pyRound 6)).sum
            / ((pairErrors.filter (fun e => e ≤ 3/10)).length : ℚ)) ∧
    (computeFlowWarpErrors pairErrors).maxWarpError
        = pyRound 6 (listMax ((pairErrors.filter (fun e => e ≤ 3/10)).map (pyRound 6))) := by
  have hfe : ((pairErrors.filter (fun e => e ≤ 3/10)).map (pyRound 6)).isEmpty = false := by
    rw [List.isEmpty_eq_false_iff_exists_mem]
    obtain ⟨x, hx⟩ := List.exists_mem_of_ne_nil _ hf
    exact ⟨pyRound 6 x, List.mem_map_of_mem _ hx⟩
  rw [computeFlowWarpErrors_ne_nil pairErrors hpe, if_neg (by rw [hfe]; exact Bool.false_ne_true)]
  exact ⟨by rw [List.length_map], rfl⟩

/-- C2.  Warp-error aggregation: pairs with normalized L1 error `> 0.3`
are excluded; the retained errors are stored rounded to 6 decimals;
`framesAnalyzed` is the retained-pair count; `meanWarpError` /
`maxWarpError` are the (re-rounded) mean and max of the retained rounded
errors; zero retained pairs (no pairs at all, or all cuts) yields the
all-zero result, and the aggregation stage never fails, so the probe
exits 0 whenever sampling succeeded. -/
theorem warp_error_aggregation (pairErrors : List ℚ) :
    ((computeFlowWarpErrors pairErrors).frameErrors
        = (pairErrors.filter (fun e => e ≤ 3/10)).map (pyRound 6)) ∧
    ((computeFlowWarpErrors pairErrors).framesAnalyzed
        = (pairErrors.filter (fun e => e ≤ 3/10)).length) ∧
    (∀ e ∈ (computeFlowWarpErrors pairErrors).frameErrors,
        ∃ raw ∈ pairErrors, raw ≤ 3/10 ∧ e = pyRound 6 raw) ∧
    (pairErrors.filter (fun e => e ≤ 3/10) = [] →
      computeFlowWarpErrors pairErrors =
        { meanWarpError := 0, maxWarpError := 0, frameErrors := [],
          framesAnalyzed := 0 }) ∧
    (pairErrors.filter (fun e => e ≤ 3/10) ≠ [] →
      (computeFlowWarpErrors pairErrors).meanWarpError
          = pyRound 6 (((pairErrors.filter (fun e => e ≤ 3/10)).map (pyRound 6)).sum
              / ((pairErrors.filter (fun e => e ≤ 3/10)).length : ℚ)) ∧
      (computeFlowWarpErrors pairErrors).maxWarpError
          = pyRound 6 (listMax ((pairErrors.filter (fun e => e ≤ 3/10)).map (pyRound 6)))) ∧
    probeExitOf (flowWarpMain (.ok pairErrors)) = 0 := by
  refine ⟨?_, ?_, ?_, ?_, ?_, flowWarpMain_ok_exit pairErrors⟩ <;>
    by_cases hpe : pairErrors = []
  case pos =>
    subst hpe
    rfl
  case neg =>
    exact frameErrors_eq_of_ne_nil pairErrors hpe
  case pos =>
    subst hpe
    rfl
  case neg =>
    rw [frameErrors_framesAnalyzed pairErrors hpe, List.length_map]
  case pos =>
    subst hpe
    intro e he
    simp [computeFlowWarpErrors] at he
  case neg =>
    intro e he
    rw [frameErrors_eq_of_ne_nil pairErrors hpe] at he
    obtain ⟨raw, hraw, rfl⟩ := List.mem_map.mp he
    obtain ⟨hrawmem, hrawle⟩ := List.mem_filter.mp hraw
    exact ⟨raw, hrawmem, by simpa using hrawle, rfl⟩
  case pos =>
    subst hpe
    exact fun _ => rfl
  case neg =>
    intro hf
    exact allzero_of_filter_nil pairErrors hpe hf
  case pos =>
    subst hpe
    exact fun hcon => absurd rfl hcon
  case neg =>
    intro hf
    exact mean_max_of_filter_ne_nil pairErrors hpe hf

/-- C2 witness: one retained error (`0.2`) and one excluded cut (`0.5`). -/
theorem warp_error_aggregation_spot :
    (computeFlowWarpErrors [(1 : ℚ)/5, 1/2]).meanWarpError
        = pyRound 6 ((([(1 : ℚ)/5, 1/2].filter (fun e => e ≤ 3/10)).map (pyRound 6)).sum
            / (([(1 : ℚ)/5, 1/2].filter (fun e => e ≤ 3/10)).length : ℚ)) ∧
    (computeFlowWarpErrors [(1 : ℚ)/5, 1/2]).maxWarpError
        = pyRound 6 (listMax (([(1 : ℚ)/5, 1/2].filter (fun e => e ≤ 3/10)).map (pyRound 6))) :=
  (warp_error_aggregation [(1 : ℚ)/5, 1/2]).2.2.2.2.1
    (by norm_num [List.filter])

theorem meanList_replicate_zero (k : ℕ) : meanList (List.replicate k (0 : ℚ)) = 0 := by
  simp [meanList, List.sum_replicate]

theorem flickerDiffs_length (frames : List (List ℚ)) :
    (flickerDiffs frames).length = frames.length - 1 := by
  simp only [flickerDiffs, List.length_zipWith, List.length_tail, List.length_map]
  omega

theorem flickerDiffs_replicate (m : ℕ) (g : List ℚ) :
    flickerDiffs (List.replicate (m + 2) g) = List.replicate (m + 1) 0 := by
  have h1 : (List.replicate (m + 2) g).map meanList
      = List.replicate (m + 2) (meanList g) := List.map_replicate
  have h2 : (List.replicate (m + 2) (meanList g)).tail
      = List.replicate (m + 1) (meanList g) := by simp
  rw [flickerDiffs, h1, h2, show m + 2 = (m + 1) + 1 from rfl, List.replicate_succ,
    show ((m : ℕ) + 1) = m + 1 from rfl]
  have : ∀ (k : ℕ), List.zipWith (fun a b => |b - a|)
      (meanList g :: List.replicate k (meanList g)) (List.replicate k (meanList g))
      = List.replicate k 0 := by
    intro k
    induction k with
    | zero => rfl
    | succ j ih =>
      rw [List.replicate_succ, List.zipWith_cons_cons]
      rw [show List.zipWith (fun a b => |b - a|)
          (meanList g :: List.replicate j (meanList g)) (List.replicate j (meanList g))
          = List.replicate j 0 from ih]
      simp [List.replicate_succ]
  exact this (m + 1)

/-- C6 (amended).  Flicker: fewer than 2 frames yields score `1.0`,
variance `0.0` without error; for 2 or more frames the reported score is
`round(max(0, 1 - meanDiff/30), 4)` and the reported variance is the
4-decimal rounding of the population variance of the first-difference
series; a constant-luminance sequence yields score `1.0`, variance `0.0`. -/
theorem flicker_spec (frames : List (List ℚ)) :
    (frames.length < 2 →
      computeFlicker frames = { score := 1, variance := 0, meanDiff := none }) ∧
    (2 ≤ frames.length →
      computeFlicker frames =
        { score := pyRound 4 (max 0 (1 - meanList (flickerDiffs frames) / 30)),
          variance := pyRound 4 (npVar (flickerDiffs frames)),
          meanDiff := some (pyRound 4 (meanList (flickerDiffs frames))) }) ∧
    (∀ (n : ℕ) (g : List ℚ), 2 ≤ n →
      computeFlicker (List.replicate n g)
        = { score := 1, variance := 0, meanDiff := some 0 }) := by
  refine ⟨?_, ?_, ?_⟩
  · intro h
    simp only [computeFlicker, if_pos h]
  · intro h2
    have hne : flickerDiffs frames ≠ [] := by
      intro hnil
      have := flickerDiffs_length frames
      rw [hnil] at this
      simp at this
      omega
    have hnee : (List.zipWith (fun a b => |b - a|) (frames.map meanList)
        (frames.map meanList).tail).isEmpty = false := by
      rw [List.isEmpty_eq_false_iff_exists_mem]
      obtain ⟨x, hx⟩ := List.exists_mem_of_ne_nil _ hne
      exact ⟨x, hx⟩
    simp only [computeFlicker, if_neg (by omega : ¬ frames.length < 2), hnee,
      Bool.false_eq_true, if_false, flickerDiffs]
  · intro n g hn
    obtain ⟨m, rfl⟩ : ∃ m, n = m + 2 := ⟨n - 2, by omega⟩
    have hlen : (List.replicate (m + 2) g).length = m + 2 := by simp
    have h2 : 2 ≤ (List.replicate (m + 2) g).length := by omega
    have hrepl := flickerDiffs_replicate m g
    have hmean : meanList (flickerDiffs (List.replicate (m + 2) g)) = 0 := by
      rw [hrepl, meanList_replicate_zero]
    have hvar : npVar (flickerDiffs (List.replicate (m + 2) g)) = 0 := by
      rw [hrepl, npVar, meanList_replicate_zero]
      have : (List.replicate (m + 1) (0 : ℚ)).map (fun x => (x - 0) ^ 2)
          = List.replicate (m + 1) 0 := by
        rw [List.map_replicate]
        norm_num
      rw [this, meanList_replicate_zero]
    have hne : flickerDiffs (List.replicate (m + 2) g) ≠ [] := by
      intro hnil
      have := flickerDiffs_length (List.replicate (m + 2) g)
      rw [hnil] at this
      simp at this
    have hmain : computeFlicker (List.replicate (m + 2) g) =
        { score := pyRound 4 (max 0 (1 - meanList (flickerDiffs (List.replicate (m + 2) g)) / 30)),
          variance := pyRound 4 (npVar (flickerDiffs (List.replicate (m + 2) g))),
          meanDiff := some (pyRound 4 (meanList (flickerDiffs (List.replicate (m + 2) g)))) } := by
      have hveq : (List.zipWith (fun a b => |b - a|) ((List.replicate (m + 2) g).map meanList)
          ((List.replicate (m + 2) g).map meanList).tail).isEmpty = false := by
        rw [List.isEmpty_eq_false_iff_exists_mem]
        obtain ⟨x, hx⟩ := List.exists_mem_of_ne_nil _ hne
        exact ⟨x, hx⟩
      simp only [computeFlicker, if_neg (by omega : ¬ (List.replicate (m + 2) g).length < 2),
        hveq, Bool.false_eq_true, if_false, flickerDiffs]
    rw [hmain, hmean, hvar]
    norm_num [pyRound, pyRoundInt]

/-- C6 witness: a constant two-frame sequence. -/
theorem flicker_spec_spot :
    computeFlicker (List.replicate 2 [(5 : ℚ)])
      = { score := 1, variance := 0, meanDiff := some 0 } :=
  (flicker_spec (List.replicate 2 [(5 : ℚ)])).2.2 2 [(5 : ℚ)] (by norm_num)

/-- C6 counterexample: two frames of mean luminance 0 and 1 give
`mean |diff| = 1` and claimed score `29/30`, but the probe reports
`round(29/30, 4) = 0.9667 ≠ 29/30`. -/
theorem flicker_rounding_cex :
    (computeFlicker [[0], [1]]).score = 9667/10000 ∧
    max (0 : ℚ) (1 - meanList (flickerDiffs [[0], [1]]) / 30) = 29/30 ∧
    (9667 : ℚ)/10000 ≠ 29/30 := by
  refine ⟨?_, ?_, by norm_num⟩
  · norm_num [computeFlicker, flickerDiffs, meanList, npVar, pyRound, pyRoundInt]
  · norm_num [flickerDiffs, meanList]

theorem count_true_replicate_false (n : ℕ) :
    List.count true (List.replicate n false) = 0 := by
  induction n with
  | zero => rfl
  | succ m ih => simp [List.replicate_succ, List.count_cons, ih]

theorem hammingDistance_self (a : List Bool) : hammingDistance a a = 0 := by
  induction a with
  | nil => rfl
  | cons x xs ih =>
    simp only [hammingDistance, List.zipWith_cons_cons] at ih ⊢
    simp [ih, List.count_cons, count_true_replicate_false]

theorem zip_replicate_succ {α : Type} (h : α) (m : ℕ) :
    (List.replicate (m + 1) h).zip (List.replicate m h)
      = List.replicate m (h, h) := by
  calc (List.replicate (m + 1) h).zip (List.replicate m h)
      = List.zipWith Prod.mk (List.replicate (m + 1) h) (List.replicate m h) := rfl
    _ = List.replicate (min (m + 1) m) (h, h) := List.zipWith_replicate
    _ = List.replicate m (h, h) := by rw [Nat.min_eq_right (by omega)]

/-- C7 (amended).  Duplicate-frame ratio: below 2 frames the ratio is
`0.0`; otherwise it is the number of consecutive 64-bit perceptual-hash
pairs at Hamming distance `≤ 5`, divided by `frameCount - 1` and rounded
to 4 decimal digits; any sequence of `n ≥ 2` identical frames yields
exactly `1.0`. -/
theorem duplicate_ratio_spec {α : Type} (phash : α → List Bool) (frames : List α) :
    (frames.length < 2 → computeDuplicateRatio phash frames = 0) ∧
    (2 ≤ frames.length →
      computeDuplicateRatio phash frames
        = pyRound 4 ((duplicatePairCount phash frames : ℚ) / ((frames.length : ℚ) - 1))) ∧
    (∀ (n : ℕ) (a : α), 2 ≤ n →
      computeDuplicateRatio phash (List.replicate n a) = 1) := by
  refine ⟨?_, ?_, ?_⟩
  · intro h
    simp only [computeDuplicateRatio, if_pos h]
  · intro h2
    simp only [computeDuplicateRatio, duplicatePairCount,
      if_neg (by omega : ¬ frames.length < 2)]
  · intro n a hn
    obtain ⟨m, rfl⟩ : ∃ m, n = m + 2 := ⟨n - 2, by omega⟩
    have hcount : duplicatePairCount phash (List.replicate (m + 2) a) = m + 1 := by
      unfold duplicatePairCount
      rw [List.map_replicate, show m + 2 = (m + 1) + 1 from rfl]
      have htail : (List.replicate (m + 1 + 1) (phash a)).tail
          = List.replicate (m + 1) (phash a) := by simp
      rw [htail, zip_replicate_succ, countP_replicate]
      rw [if_pos]
      simp only [decide_eq_true_eq, hammingDistance_self]
      omega
    have hlen : (List.replicate (m + 2) a).length = m + 2 := by simp
    simp only [computeDuplicateRatio, duplicatePairCount,
      if_neg (show ¬ (List.replicate (m + 2) a).length < 2 by rw [hlen]; omega)] at hcount ⊢
    rw [hcount, hlen]
    push_cast
    rw [show ((m : ℚ) + 2 - 1) = (m : ℚ) + 1 by ring,
      div_self (show ((m : ℚ) + 1) ≠ 0 by positivity)]
    norm_num [pyRound, pyRoundInt]

/-- C7 witness: two identical 64-bit hashes give ratio `1.0`. -/
theorem duplicate_ratio_spec_spot :
    computeDuplicateRatio id (List.replicate 2 (List.replicate 64 false)) = 1 :=
  (duplicate_ratio_spec id (List.replicate 2 (List.replicate 64 false))).2.2
    2 (List.replicate 64 false) (by norm_num)

/-- C7 counterexample: four frames (two all-zero hashes then two all-one
hashes) have 2 duplicate pairs among 3, and the probe reports
`round(2/3, 4) = 0.6667 ≠ 2/3` — the ratio is not literally
`count / (frameCount - 1)`. -/
theorem duplicate_ratio_rounding_cex :
    computeDuplicateRatio id
      [List.replicate 64 false, List.replicate 64 false,
       List.replicate 64 true, List.replicate 64 true] = 6667/10000 ∧
    duplicatePairCount id
      [List.replicate 64 false, List.replicate 64 false,
       List.replicate 64 true, List.replicate 64 true] = 2 ∧
    (6667 : ℚ)/10000 ≠ (2 : ℚ)/3 := by
  have hcount : duplicatePairCount id
      [List.replicate 64 false, List.replicate 64 false,
       List.replicate 64 true, List.replicate 64 true] = 2 := by decide
  refine ⟨?_, hcount, by norm_num⟩
  show pyRound 4 ((duplicatePairCount id
      [List.replicate 64 false, List.replicate 64 false,
       List.replicate 64 true, List.replicate 64 true] : ℚ) / ((4 : ℚ) - 1)) = 6667/10000
  rw [hcount]
  norm_num [pyRound, pyRoundInt]

end ContentMachine
